import Mathlib

/-!
Verification development for the login/base handoff server
(`wg-toolkit/examples/server.rs`).

The development shallowly embeds the two protocol handlers (`LoginApp` and
`BaseApp`), their client-tracking state, the pending-handoff registry and the
session-key allocator.  Machine integers (`u32`, `u8`) are modelled as `Nat`
with explicit `% 2^32` / `% 256` where the source casts; `HashMap` is modelled
as an association list with lookup / replace-insert / remove-all operations
(faithful for maps without duplicate keys, which is all a `HashMap` can hold);
the fallible operations of the source (`Option::unwrap` on a reply-request
token, `checked_add(..).expect(..)` on the session-key counter) are modelled by
an `Except Panic` result: a `.error` outcome is a process panic, which in the
single-process source terminates both services.

Nondeterministic environment reads are modelled by streams carried in the
state: `BaseApp.elapsed` is the successive readings of
`start_time.elapsed().as_secs()` (one entry consumed per `current_time` call),
`LoginApp.rng` the successive `OsRng.next_u64()` draws for challenge prefixes,
and `BaseApp.rng` the successive `OsRng.next_u32()` draws of the pending-client
key allocator (when the modelled draw list is exhausted the allocator falls
back to a key not present in the registry, modelling the almost-sure
termination of the rejection-sampling loop).

`println!` logging and the wire encoding of bundles are out of scope (the spec
treats them as external collaborators); a sent bundle is modelled as the list
of elements appended to it, in order, together with the destination address.
-/

/-- `u32::MAX`. -/
def U32_MAX : Nat := 4294967295

/-- `2^32`, the modulus of `u32` casts. -/
def U32_MOD : Nat := 4294967296

/-- `u32::checked_add`: `none` exactly when the mathematical sum exceeds `u32::MAX`. -/
def checkedAddU32 (a b : Nat) : Option Nat :=
  if a + b ≤ U32_MAX then some (a + b) else none

/-- Association-list lookup, modelling `HashMap::get`: the first binding of the key. -/
def lookupA {α : Type} (l : List (Nat × α)) (k : Nat) : Option α :=
  match l with
  | [] => none
  | (k', v) :: rest => if k' = k then some v else lookupA rest k

/-- Association-list insert-or-replace, modelling `HashMap::insert`:
replaces the first binding of the key, or appends a new binding. -/
def insertA {α : Type} (l : List (Nat × α)) (k : Nat) (v : α) : List (Nat × α) :=
  match l with
  | [] => [(k, v)]
  | (k', v') :: rest =>
      if k' = k then (k, v) :: rest else (k', v') :: insertA rest k v

/-- Association-list removal, modelling `HashMap::remove`:
drops every binding of the key (a `HashMap` holds at most one). -/
def removeA {α : Type} (l : List (Nat × α)) (k : Nat) : List (Nat × α) :=
  l.filter (fun p => p.1 ≠ k)

/-- A process panic: `Option::unwrap` on `None`, or the
`checked_add(1).expect("too much logged clients")` on counter exhaustion. -/
inductive Panic where
  | unwrapNone
  | tooMuchLoggedClients
deriving DecidableEq, Repr

/-- `LoginClient` (src/wg-toolkit/examples/server.rs:392): per-address login
state.  The blowfish key negotiated by a login request is modelled as the raw
numeric key material. -/
structure LoginClient where
  addr : Nat
  blowfish : Option Nat
  challenge_complete : Bool
deriving DecidableEq, Repr

/-- `LoginClient::new` (server.rs:401). -/
def LoginClient.new (addr : Nat) : LoginClient :=
  { addr := addr, blowfish := none, challenge_complete := false }

/-- `PendingBaseClient` (server.rs:414): a pending-handoff registry entry. -/
structure PendingBaseClient where
  addr : Nat
  blowfish : Nat
deriving DecidableEq, Repr

/-- `PendingBaseClient::new` (server.rs:422). -/
def PendingBaseClient.new (addr : Nat) (blowfish : Nat) : PendingBaseClient :=
  { addr := addr, blowfish := blowfish }

/-- `BaseClient` (server.rs:430): per-address base-session state. -/
structure BaseClient where
  session_key : Nat
  sent_freq : Bool
deriving DecidableEq, Repr

/-- `BaseClient::new` (server.rs:438). -/
def BaseClient.new (session_key : Nat) : BaseClient :=
  { session_key := session_key, sent_freq := false }

/-- An element appended to an outgoing bundle.  Replies carry the correlated
request token.  `LoginChallenge::CuckooCycle` carries the random hexadecimal
prefix value and the computed nonce bound; `LoginSuccess` carries the issued
handoff credential (the base-app routing address and empty server message are
constants of the source, omitted). -/
inductive OutElement where
  | pingReply (num : Nat) (request_id : Nat)
  | loginChallenge (prefixValue : Nat) (maxNonce : Nat) (request_id : Nat)
  | loginSuccess (login_key : Nat) (request_id : Nat)
  | serverSessionKeyReply (session_key : Nat) (request_id : Nat)
  | updateFrequencyNotification (frequency : Nat) (game_time : Nat)
  | tickSync (tick : Nat)
  | createBasePlayer (entity_id : Nat) (entity_type : Nat)
deriving DecidableEq, Repr

/-- A sent bundle: destination address and the elements appended, in order. -/
abbrev Sent := Nat × List OutElement

/-- An element of an incoming bundle on the login app (server.rs:122-207).
`ping` and `loginRequest` carry their optional reply-request token;
`challengeResponse` carries its (ignored) answer payload;
`unknownSimple` / `unknownReply` are unrecognized element ids. -/
inductive LoginElement where
  | ping (num : Nat) (request_id : Option Nat)
  | loginRequest (blowfish_key : Nat) (request_id : Option Nat)
  | challengeResponse (content : Nat)
  | unknownSimple (id : Nat)
  | unknownReply (id : Nat)
deriving DecidableEq, Repr

/-- An element of an incoming bundle on the base app (server.rs:261-352). -/
inductive BaseElement where
  | clientAuth (login_key : Nat) (attempts_count : Nat) (unk : Nat)
      (request_id : Option Nat)
  | clientSessionKey (session_key : Nat)
  | unknownSimple (id : Nat)
  | unknownReply (id : Nat)
deriving DecidableEq, Repr

/-- `BaseApp` (server.rs:216): the base-app state.  `channels` records the
addresses on which `App::set_channel` activated a symmetric cipher (mapped to
the activated key material); `elapsed` and `rng` are the environment streams
described in the module docstring. -/
structure BaseApp where
  pending_clients : List (Nat × PendingBaseClient)
  logged_clients : List (Nat × BaseClient)
  logged_counter : Nat
  channels : List (Nat × Nat)
  elapsed : List Nat
  rng : List Nat
deriving DecidableEq, Repr

/-- `BaseApp::UPDATE_FREQ` (server.rs:232): default update frequency, 10 Hz. -/
def BaseApp.UPDATE_FREQ : Nat := 10

/-- `BaseApp::current_time` (server.rs:371): one reading of
`start_time.elapsed().as_secs()` cast to `u32`, consuming the head of the
`elapsed` stream (an exhausted stream reads as 0 seconds). -/
def BaseApp.current_time (app : BaseApp) : Nat × BaseApp :=
  match app.elapsed with
  | [] => (0, app)
  | t :: rest => (t % U32_MOD, { app with elapsed := rest })

/-- `BaseApp::current_time_tick` (server.rs:376): the current time cast to `u8`. -/
def BaseApp.current_time_tick (app : BaseApp) : Nat × BaseApp :=
  let (t, app) := app.current_time
  (t % 256, app)

/-- `BaseApp::timestamp_bundle` (server.rs:381): append a `TickSync` element
carrying the current tick to the bundle. -/
def BaseApp.timestamp_bundle (app : BaseApp) (bundle : List OutElement) :
    List OutElement × BaseApp :=
  let (tick, app) := app.current_time_tick
  (bundle ++ [.tickSync tick], app)

/-- A key not bound in the registry (used by the allocator model when the
finite draw list is exhausted, see the module docstring). -/
def freshKey (pending : List (Nat × PendingBaseClient)) : Nat :=
  (pending.map Prod.fst).foldr max 0 + 1

/-- The rejection-sampling loop of `BaseApp::alloc_pending_client`
(server.rs:358-367): draw keys until one is vacant in the registry, insert the
pending client there, and return the key with the updated registry and the
remaining draws. -/
def allocLoop (pending : List (Nat × PendingBaseClient)) (addr bf : Nat) :
    List Nat → Nat × List (Nat × PendingBaseClient) × List Nat
  | [] =>
      let key := freshKey pending
      (key, insertA pending key (PendingBaseClient.new addr bf), [])
  | k :: rest =>
      match lookupA pending k with
      | none => (k, insertA pending k (PendingBaseClient.new addr bf), rest)
      | some _ => allocLoop pending addr bf rest

/-- `BaseApp::alloc_pending_client` (server.rs:357). -/
def BaseApp.alloc_pending_client (app : BaseApp) (addr bf : Nat) : Nat × BaseApp :=
  let r := allocLoop app.pending_clients addr bf app.rng
  (r.1, { app with pending_clients := r.2.1, rng := r.2.2 })

/-- `BaseApp::handle_element` (server.rs:252-354).  Returns the updated state,
the bundles sent (in order), and the continue flag of the batch loop; `.error`
is a process panic.  Mirrors the source exactly: on `ClientAuth` the pending
entry is removed before the address check; on a matching `ClientSessionKey`
confirmation with `sent_freq` false the two bootstrap bundles are sent and
`sent_freq` is left untouched (the source never sets it). -/
def BaseApp.handle_element (app : BaseApp) (addr : Nat) (element : BaseElement) :
    Except Panic (BaseApp × List Sent × Bool) :=
  match element with
  | .clientAuth login_key _ _ request_id =>
      match lookupA app.pending_clients login_key with
      | some pending_login =>
          let app := { app with
            pending_clients := removeA app.pending_clients login_key }
          if pending_login.addr = addr then
            let app := { app with
              channels := insertA app.channels addr pending_login.blowfish }
            match checkedAddU32 app.logged_counter 1 with
            | none => .error .tooMuchLoggedClients
            | some logged_key =>
                let app := { app with
                  logged_counter := logged_key,
                  logged_clients :=
                    insertA app.logged_clients addr (BaseClient.new logged_key) }
                match request_id with
                | none => .error .unwrapNone
                | some rid =>
                    .ok (app, [(addr, [.serverSessionKeyReply logged_key rid])], true)
          else
            .ok (app, [], true)
      | none => .ok (app, [], true)
  | .clientSessionKey session_key =>
      match lookupA app.logged_clients addr with
      | some client =>
          if session_key = client.session_key then
            if client.sent_freq = false then
              let (game_time, app) := app.current_time
              let bundle1 : List OutElement :=
                [.updateFrequencyNotification BaseApp.UPDATE_FREQ game_time]
              let (bundle1, app) := app.timestamp_bundle bundle1
              let (bundle2, app) := app.timestamp_bundle []
              let bundle2 := bundle2 ++ [.createBasePlayer 37289213 11]
              .ok (app, [(addr, bundle1), (addr, bundle2)], true)
            else
              .ok (app, [], true)
          else
            .ok (app, [], true)
      | none => .ok (app, [], true)
  | .unknownSimple _ => .ok (app, [], false)
  | .unknownReply _ => .ok (app, [], false)

/-- `BaseApp::handle` on one bundle (server.rs:237-243): process the elements
in order, stopping when a handler returns false. -/
def BaseApp.handleBundle (app : BaseApp) (addr : Nat) :
    List BaseElement → Except Panic (BaseApp × List Sent)
  | [] => .ok (app, [])
  | e :: rest =>
      match app.handle_element addr e with
      | .error p => .error p
      | .ok (app', sent, cont) =>
          if cont then
            match app'.handleBundle addr rest with
            | .error p => .error p
            | .ok (app'', sent') => .ok (app'', sent ++ sent')
          else
            .ok (app', sent)

/-- A run of the base app over a sequence of received bundle events
(sender address, decoded elements). -/
def BaseApp.run (app : BaseApp) :
    List (Nat × List BaseElement) → Except Panic (BaseApp × List Sent)
  | [] => .ok (app, [])
  | (addr, elems) :: evs =>
      match app.handleBundle addr elems with
      | .error p => .error p
      | .ok (app', sent) =>
          match app'.run evs with
          | .error p => .error p
          | .ok (app'', sent') => .ok (app'', sent ++ sent')

/-- `((1 << 20) as f32 * 0.9) as u32` (server.rs:153-157): `0.9f32` is
`15099494 / 2^24`, the product `943718.375` is exactly representable, and the
cast truncates, giving `943718`. -/
def cuckooMaxNonce : Nat := 943718

/-- `LoginApp` (server.rs:86): the login-app state.  The RSA private key only
parameterizes decoding (out of scope); `rng` is the challenge-prefix draw
stream. -/
structure LoginApp where
  clients : List (Nat × LoginClient)
  rng : List Nat
deriving DecidableEq, Repr

/-- One `OsRng.next_u64()` draw (server.rs:151), consuming the head of the
`rng` stream (an exhausted stream draws 0). -/
def LoginApp.drawRng (login : LoginApp) : Nat × LoginApp :=
  match login.rng with
  | [] => (0, login)
  | v :: rest => (v, { login with rng := rest })

/-- `LoginApp::handle_element` (server.rs:113-210).  The per-address client is
created on first contact (the `entry().or_insert` at server.rs:115-118), a
login request stores the blowfish key and answers with a challenge or, once
the challenge is complete, a login success carrying a freshly allocated
handoff credential; a challenge response is accepted unconditionally.
`.error` is a process panic (`request_id.unwrap()` on a message that carried
no reply-request token). -/
def LoginApp.handle_element (login : LoginApp) (base : BaseApp) (addr : Nat)
    (element : LoginElement) :
    Except Panic (LoginApp × BaseApp × List Sent × Bool) :=
  let client := (lookupA login.clients addr).getD (LoginClient.new addr)
  let login := { login with clients := insertA login.clients addr client }
  match element with
  | .ping num request_id =>
      match request_id with
      | none => .error .unwrapNone
      | some rid => .ok (login, base, [(addr, [.pingReply num rid])], true)
  | .loginRequest blowfish_key request_id =>
      let client := { client with blowfish := some blowfish_key }
      let login := { login with clients := insertA login.clients addr client }
      if client.challenge_complete = false then
        let (prefixValue, login) := login.drawRng
        match request_id with
        | none => .error .unwrapNone
        | some rid =>
            .ok (login, base,
              [(addr, [.loginChallenge prefixValue cuckooMaxNonce rid])], true)
      else
        let (login_key, base) := base.alloc_pending_client addr blowfish_key
        match request_id with
        | none => .error .unwrapNone
        | some rid =>
            .ok (login, base, [(addr, [.loginSuccess login_key rid])], true)
  | .challengeResponse _ =>
      let client := { client with challenge_complete := true }
      let login := { login with clients := insertA login.clients addr client }
      .ok (login, base, [], true)
  | .unknownSimple _ => .ok (login, base, [], false)
  | .unknownReply _ => .ok (login, base, [], false)

/-- `LoginApp::handle` on one bundle (server.rs:99-105). -/
def LoginApp.handleBundle (login : LoginApp) (base : BaseApp) (addr : Nat) :
    List LoginElement → Except Panic (LoginApp × BaseApp × List Sent)
  | [] => .ok (login, base, [])
  | e :: rest =>
      match login.handle_element base addr e with
      | .error p => .error p
      | .ok (login', base', sent, cont) =>
          if cont then
            match login'.handleBundle base' addr rest with
            | .error p => .error p
            | .ok (login'', base'', sent') => .ok (login'', base'', sent ++ sent')
          else
            .ok (login', base', sent)

/-- A run of the login app over a sequence of received bundle events. -/
def LoginApp.run (login : LoginApp) (base : BaseApp) :
    List (Nat × List LoginElement) → Except Panic (LoginApp × BaseApp × List Sent)
  | [] => .ok (login, base, [])
  | (addr, elems) :: evs =>
      match login.handleBundle base addr elems with
      | .error p => .error p
      | .ok (login', base', sent) =>
          match login'.run base' evs with
          | .error p => .error p
          | .ok (login'', base'', sent') => .ok (login'', base'', sent ++ sent')

/-- The session keys carried by `ServerSessionKey` replies in a bundle. -/
def issuedKeysB : List OutElement → List Nat
  | [] => []
  | .serverSessionKeyReply k _ :: rest => k :: issuedKeysB rest
  | _ :: rest => issuedKeysB rest

/-- The session keys issued across a list of sent bundles, in issue order. -/
def issuedKeys : List Sent → List Nat
  | [] => []
  | (_, b) :: rest => issuedKeysB b ++ issuedKeys rest

/-- The `challenge_complete` flag tracked for an address (false when the
address has no login client yet). -/
def flagAt (login : LoginApp) (a : Nat) : Bool :=
  match lookupA login.clients a with
  | some c => c.challenge_complete
  | none => false

theorem lookupA_removeA_self {α : Type} (l : List (Nat × α)) (k : Nat) :
    lookupA (removeA l k) k = none := by
  induction l with
  | nil => rfl
  | cons p rest ih =>
      obtain ⟨k', v'⟩ := p
      by_cases h : k' = k
      · simpa [removeA, List.filter, h] using ih
      · simpa [removeA, List.filter, h, lookupA] using ih

theorem lookupA_insertA_self {α : Type} (l : List (Nat × α)) (k : Nat) (v : α) :
    lookupA (insertA l k v) k = some v := by
  induction l with
  | nil => simp [insertA, lookupA]
  | cons p rest ih =>
      obtain ⟨k', v'⟩ := p
      by_cases h : k' = k
      · simp [insertA, h, lookupA]
      · simp [insertA, h, lookupA, ih]

theorem lookupA_insertA_ne {α : Type} (l : List (Nat × α)) (k a : Nat) (v : α)
    (h : a ≠ k) : lookupA (insertA l k v) a = lookupA l a := by
  have h' : ¬(k = a) := fun e => h e.symm
  induction l with
  | nil => simp [insertA, lookupA, h']
  | cons p rest ih =>
      obtain ⟨k', v'⟩ := p
      by_cases hk : k' = k
      · subst hk
        simp [insertA, lookupA, h']
      · simp [insertA, hk, lookupA, ih]

theorem auth_absent (app : BaseApp) (addr k a u : Nat) (rid : Option Nat)
    (h : lookupA app.pending_clients k = none) :
    app.handle_element addr (.clientAuth k a u rid) = .ok (app, [], true) := by
  simp [BaseApp.handle_element, h]

theorem auth_mismatch (app : BaseApp) (addr k a u : Nat) (rid : Option Nat)
    (p : PendingBaseClient)
    (h : lookupA app.pending_clients k = some p) (ha : p.addr ≠ addr) :
    app.handle_element addr (.clientAuth k a u rid) =
      .ok ({ app with pending_clients := removeA app.pending_clients k },
        [], true) := by
  simp [BaseApp.handle_element, h, ha]

theorem auth_match (app : BaseApp) (addr k a u rid : Nat) (p : PendingBaseClient)
    (h : lookupA app.pending_clients k = some p) (ha : p.addr = addr)
    (hc : app.logged_counter < U32_MAX) :
    app.handle_element addr (.clientAuth k a u (some rid)) =
      .ok ({ app with
              pending_clients := removeA app.pending_clients k,
              channels := insertA app.channels addr p.blowfish,
              logged_counter := app.logged_counter + 1,
              logged_clients := insertA app.logged_clients addr
                (BaseClient.new (app.logged_counter + 1)) },
           [(addr, [.serverSessionKeyReply (app.logged_counter + 1) rid])],
           true) := by
  have hadd : checkedAddU32 app.logged_counter 1 = some (app.logged_counter + 1) := by
    simp [checkedAddU32]
    omega
  simp [BaseApp.handle_element, h, ha, hadd]

theorem auth_match_nonid (app : BaseApp) (addr k a u : Nat) (p : PendingBaseClient)
    (h : lookupA app.pending_clients k = some p) (ha : p.addr = addr)
    (hc : app.logged_counter < U32_MAX) :
    app.handle_element addr (.clientAuth k a u none) = .error .unwrapNone := by
  have hadd : checkedAddU32 app.logged_counter 1 = some (app.logged_counter + 1) := by
    simp [checkedAddU32]
    omega
  simp [BaseApp.handle_element, h, ha, hadd]

theorem auth_match_exhausted (app : BaseApp) (addr k a u : Nat) (rid : Option Nat)
    (p : PendingBaseClient)
    (h : lookupA app.pending_clients k = some p) (ha : p.addr = addr)
    (hc : app.logged_counter = U32_MAX) :
    app.handle_element addr (.clientAuth k a u rid) =
      .error .tooMuchLoggedClients := by
  have hadd : checkedAddU32 app.logged_counter 1 = none := by
    simp [checkedAddU32]
    omega
  simp [BaseApp.handle_element, h, ha, hadd]

theorem skey_no_client (app : BaseApp) (addr sk : Nat)
    (h : lookupA app.logged_clients addr = none) :
    app.handle_element addr (.clientSessionKey sk) = .ok (app, [], true) := by
  simp [BaseApp.handle_element, h]

theorem skey_mismatch (app : BaseApp) (addr sk : Nat) (c : BaseClient)
    (h : lookupA app.logged_clients addr = some c) (hk : sk ≠ c.session_key) :
    app.handle_element addr (.clientSessionKey sk) = .ok (app, [], true) := by
  simp [BaseApp.handle_element, h, hk]

theorem skey_match_fresh (app : BaseApp) (addr sk t0 t1 t2 : Nat) (rest : List Nat)
    (c : BaseClient)
    (h : lookupA app.logged_clients addr = some c) (hk : sk = c.session_key)
    (hf : c.sent_freq = false) (he : app.elapsed = t0 :: t1 :: t2 :: rest) :
    app.handle_element addr (.clientSessionKey sk) =
      .ok ({ app with elapsed := rest },
        [(addr, [.updateFrequencyNotification BaseApp.UPDATE_FREQ (t0 % U32_MOD),
                 .tickSync (t1 % U32_MOD % 256)]),
         (addr, [.tickSync (t2 % U32_MOD % 256),
                 .createBasePlayer 37289213 11])], true) := by
  simp [BaseApp.handle_element, h, hk, hf, BaseApp.current_time,
    BaseApp.current_time_tick, BaseApp.timestamp_bundle, he]

theorem skey_match_already (app : BaseApp) (addr sk : Nat) (c : BaseClient)
    (h : lookupA app.logged_clients addr = some c) (hk : sk = c.session_key)
    (hf : c.sent_freq = true) :
    app.handle_element addr (.clientSessionKey sk) = .ok (app, [], true) := by
  simp [BaseApp.handle_element, h, hk, hf]

theorem auth_consumes (app : BaseApp) (addr k a u : Nat) (rid : Option Nat)
    (p : PendingBaseClient) (app' : BaseApp) (sent : List Sent) (cont : Bool)
    (h : lookupA app.pending_clients k = some p)
    (heq : app.handle_element addr (.clientAuth k a u rid) = .ok (app', sent, cont)) :
    lookupA app'.pending_clients k = none := by
  by_cases hm : p.addr = addr
  · rcases hadd : checkedAddU32 app.logged_counter 1 with _ | lk
    · simp [BaseApp.handle_element, h, hm, hadd] at heq
    · rcases rid with _ | rid
      · simp [BaseApp.handle_element, h, hm, hadd] at heq
      · simp [BaseApp.handle_element, h, hm, hadd] at heq
        obtain ⟨h1, -⟩ := heq
        subst h1
        simp [lookupA_removeA_self]
  · simp [BaseApp.handle_element, h, hm] at heq
    obtain ⟨h1, -⟩ := heq
    subst h1
    simp [lookupA_removeA_self]

/-- C1: once a handoff credential has been consumed by a redemption whose
sender matches the stored origin address, the credential is gone from the
registry, and a later `ClientAuth` carrying it finds no entry and is handled
as a pure no-op: the state is unchanged (no `BaseClient` created, no session
key issued, the counter untouched) and nothing is sent. -/
theorem claim_C1 :
    (∀ app addr k a u rid p app' sent cont,
      lookupA app.pending_clients k = some p → p.addr = addr →
      BaseApp.handle_element app addr (.clientAuth k a u rid) =
        .ok (app', sent, cont) →
      lookupA app'.pending_clients k = none) ∧
    (∀ app addr k a u rid,
      lookupA app.pending_clients k = none →
      BaseApp.handle_element app addr (.clientAuth k a u rid) =
        .ok (app, [], true)) := by
  constructor
  · intro app addr k a u rid p app' sent cont h _ha heq
    exact auth_consumes app addr k a u rid p app' sent cont h heq
  · intro app addr k a u rid h
    exact auth_absent app addr k a u rid h

/-- A base-app state with one pending handoff for address 1 under credential 5. -/
def wBase : BaseApp :=
  { pending_clients := [(5, PendingBaseClient.new 1 99)], logged_clients := [],
    logged_counter := 0, channels := [], elapsed := [], rng := [] }

/-- The state after address 1 redeems credential 5 on `wBase`. -/
def wBaseConsumed : BaseApp :=
  { pending_clients := [], logged_clients := [(1, BaseClient.new 1)],
    logged_counter := 1, channels := [(1, 99)], elapsed := [], rng := [] }

theorem claim_C1_witness :
    lookupA wBaseConsumed.pending_clients 5 = none ∧
    BaseApp.handle_element wBaseConsumed 1 (.clientAuth 5 2 0 (some 10)) =
      .ok (wBaseConsumed, [], true) := by
  constructor
  · exact claim_C1.1 wBase 1 5 1 0 (some 9) (PendingBaseClient.new 1 99)
      wBaseConsumed [(1, [OutElement.serverSessionKeyReply 1 9])] true rfl rfl rfl
  · exact claim_C1.2 wBaseConsumed 1 5 2 0 (some 10) rfl

/-- C2: a `ClientAuth` whose credential is registered but whose sender differs
from the entry's origin address creates no `BaseClient` for the sender, does
not activate the symmetric cipher for that address, and sends no session-key
reply (the pending entry is nonetheless consumed, see C5). -/
theorem claim_C2 :
    ∀ app addr k a u rid p,
      lookupA app.pending_clients k = some p → p.addr ≠ addr →
      BaseApp.handle_element app addr (.clientAuth k a u rid) =
        .ok ({ app with pending_clients := removeA app.pending_clients k },
          [], true) ∧
      ({ app with pending_clients := removeA app.pending_clients k }
        : BaseApp).logged_clients = app.logged_clients ∧
      ({ app with pending_clients := removeA app.pending_clients k }
        : BaseApp).channels = app.channels ∧
      ({ app with pending_clients := removeA app.pending_clients k }
        : BaseApp).logged_counter = app.logged_counter := by
  intro app addr k a u rid p h hm
  exact ⟨auth_mismatch app addr k a u rid p h hm, rfl, rfl, rfl⟩

theorem claim_C2_witness :
    BaseApp.handle_element wBase 2 (.clientAuth 5 1 0 (some 9)) =
      .ok ({ wBase with pending_clients := removeA wBase.pending_clients 5 },
        [], true) ∧
    ({ wBase with pending_clients := removeA wBase.pending_clients 5 }
      : BaseApp).logged_clients = wBase.logged_clients ∧
    ({ wBase with pending_clients := removeA wBase.pending_clients 5 }
      : BaseApp).channels = wBase.channels ∧
    ({ wBase with pending_clients := removeA wBase.pending_clients 5 }
      : BaseApp).logged_counter = wBase.logged_counter :=
  claim_C2 wBase 2 5 1 0 (some 9) (PendingBaseClient.new 1 99) rfl (by decide)

/-- C5 counterexample: on `wBase` (credential 5 registered to origin address
1), a redemption attempt from the non-matching address 2 does NOT leave the
entry in the registry: the handler removes the entry before checking the
address (server.rs:272), so afterwards the registry no longer holds credential
5 and even the origin address 1 can no longer redeem it. -/
theorem claim_C5_cex :
    lookupA wBase.pending_clients 5 = some (PendingBaseClient.new 1 99) ∧
    (PendingBaseClient.new 1 99).addr ≠ 2 ∧
    BaseApp.handle_element wBase 2 (.clientAuth 5 0 0 none) =
      .ok ({ wBase with pending_clients := [] }, [], true) ∧
    lookupA ({ wBase with pending_clients := [] } : BaseApp).pending_clients 5
      = none ∧
    BaseApp.handle_element { wBase with pending_clients := [] } 1
      (.clientAuth 5 0 0 (some 9)) =
      .ok ({ wBase with pending_clients := [] }, [], true) :=
  ⟨rfl, by decide, rfl, rfl, rfl⟩

/-- C5 as amended: a pending-handoff entry is removed from the registry by the
first redemption attempt carrying its credential that the handler completes,
whether or not the sender address matches the entry's origin address; in
particular after a mismatched-address attempt the entry is gone and the
credential is no longer redeemable, by the origin address or anyone else. -/
theorem claim_C5_amended :
    ∀ app addr k a u rid p app' sent cont,
      lookupA app.pending_clients k = some p →
      BaseApp.handle_element app addr (.clientAuth k a u rid) =
        .ok (app', sent, cont) →
      lookupA app'.pending_clients k = none := by
  intro app addr k a u rid p app' sent cont h heq
  exact auth_consumes app addr k a u rid p app' sent cont h heq

theorem claim_C5_amended_witness :
    lookupA ({ wBase with pending_clients := [] } : BaseApp).pending_clients 5
      = none :=
  claim_C5_amended wBase 2 5 0 0 none (PendingBaseClient.new 1 99)
    { wBase with pending_clients := [] } [] true rfl rfl

/-- C9 counterexample: a `ClientAuth` that carries no reply-request token does
NOT always panic: when its credential is absent from the registry the handler
logs and returns normally without ever reaching the `unwrap` (the unwrap at
server.rs:287 sits inside the matched-redemption branch), so the claim's
"unconditionally unwraps" is false for `ClientAuth`. -/
theorem claim_C9_cex :
    BaseApp.handle_element wBaseConsumed 3 (.clientAuth 5 1 0 none) =
      .ok (wBaseConsumed, [], true) ∧
    BaseApp.handle_element wBaseConsumed 3 (.clientAuth 5 1 0 none) ≠
      .error .unwrapNone ∧
    BaseApp.handle_element wBaseConsumed 3 (.clientAuth 5 1 0 none) ≠
      .error .tooMuchLoggedClients :=
  by
  have hok : BaseApp.handle_element wBaseConsumed 3 (.clientAuth 5 1 0 none) =
      .ok (wBaseConsumed, [], true) := rfl
  refine ⟨hok, ?_, ?_⟩
  · rw [hok]
    exact fun h => Except.noConfusion h
  · rw [hok]
    exact fun h => Except.noConfusion h

/-- C9 as amended: the `Ping` and `LoginRequest` handlers unconditionally
unwrap the reply-request token, so either message arriving without one panics
the process (in the single-process source this terminates both services); the
`ClientAuth` handler unwraps the token only inside the matched-redemption
branch, so a token-less `ClientAuth` panics exactly when its credential is
registered with a matching origin address (and the counter has room), and is
handled without panic when the credential is absent or the address
mismatches. -/
theorem claim_C9_amended :
    (∀ login base addr num,
      LoginApp.handle_element login base addr (.ping num none) =
        .error .unwrapNone) ∧
    (∀ login base addr bfk,
      LoginApp.handle_element login base addr (.loginRequest bfk none) =
        .error .unwrapNone) ∧
    (∀ app addr k a u p,
      lookupA app.pending_clients k = some p → p.addr = addr →
      app.logged_counter < U32_MAX →
      BaseApp.handle_element app addr (.clientAuth k a u none) =
        .error .unwrapNone) ∧
    (∀ app addr k a u,
      lookupA app.pending_clients k = none →
      BaseApp.handle_element app addr (.clientAuth k a u none) =
        .ok (app, [], true)) ∧
    (∀ app addr k a u p,
      lookupA app.pending_clients k = some p → p.addr ≠ addr →
      BaseApp.handle_element app addr (.clientAuth k a u none) =
        .ok ({ app with pending_clients := removeA app.pending_clients k },
          [], true)) := by
  refine ⟨?_, ?_, ?_, ?_, ?_⟩
  · intro login base addr num
    simp [LoginApp.handle_element]
  · intro login base addr bfk
    simp only [LoginApp.handle_element]
    split
    · simp [LoginApp.drawRng]
    · rfl
  · intro app addr k a u p h hm hc
    exact auth_match_nonid app addr k a u p h hm hc
  · intro app addr k a u h
    exact auth_absent app addr k a u none h
  · intro app addr k a u p h hm
    exact auth_mismatch app addr k a u none p h hm

theorem claim_C9_amended_witness :
    LoginApp.handle_element { clients := [], rng := [] } wBase 1 (.ping 4 none) =
      .error .unwrapNone ∧
    LoginApp.handle_element { clients := [], rng := [] } wBase 1
      (.loginRequest 42 none) = .error .unwrapNone ∧
    BaseApp.handle_element wBase 1 (.clientAuth 5 1 0 none) =
      .error .unwrapNone ∧
    BaseApp.handle_element wBaseConsumed 1 (.clientAuth 5 1 0 none) =
      .ok (wBaseConsumed, [], true) ∧
    BaseApp.handle_element wBase 2 (.clientAuth 5 1 0 none) =
      .ok ({ wBase with pending_clients := removeA wBase.pending_clients 5 },
        [], true) :=
  ⟨claim_C9_amended.1 { clients := [], rng := [] } wBase 1 4,
   claim_C9_amended.2.1 { clients := [], rng := [] } wBase 1 42,
   claim_C9_amended.2.2.1 wBase 1 5 1 0 (PendingBaseClient.new 1 99) rfl rfl
     (by decide),
   claim_C9_amended.2.2.2.1 wBaseConsumed 1 5 1 0 rfl,
   claim_C9_amended.2.2.2.2 wBase 2 5 1 0 (PendingBaseClient.new 1 99) rfl
     (by decide)⟩

/-- C10: an address that already holds an established `BaseClient` and redeems
a second valid pending credential bound to that address gets its entry
silently replaced: a strictly larger session key (the incremented counter) is
issued and replied, the bootstrap-sent flag of the stored client is reset to
false, and a confirmation carrying the previous session key no longer matches
(it is dropped with no output and no state change).  The hypothesis
`old.session_key ≤ app.logged_counter` is the allocator invariant (every key
ever issued is at most the current counter, see C4). -/
theorem claim_C10 :
    ∀ app addr k a u rid p old,
      lookupA app.pending_clients k = some p → p.addr = addr →
      lookupA app.logged_clients addr = some old →
      old.session_key ≤ app.logged_counter →
      app.logged_counter < U32_MAX →
      BaseApp.handle_element app addr (.clientAuth k a u (some rid)) =
        .ok ({ app with
                pending_clients := removeA app.pending_clients k,
                channels := insertA app.channels addr p.blowfish,
                logged_counter := app.logged_counter + 1,
                logged_clients := insertA app.logged_clients addr
                  (BaseClient.new (app.logged_counter + 1)) },
          [(addr, [.serverSessionKeyReply (app.logged_counter + 1) rid])],
          true) ∧
      lookupA (insertA app.logged_clients addr
          (BaseClient.new (app.logged_counter + 1))) addr
        = some (BaseClient.new (app.logged_counter + 1)) ∧
      (BaseClient.new (app.logged_counter + 1)).sent_freq = false ∧
      old.session_key < (BaseClient.new (app.logged_counter + 1)).session_key ∧
      BaseApp.handle_element
          { app with
              pending_clients := removeA app.pending_clients k,
              channels := insertA app.channels addr p.blowfish,
              logged_counter := app.logged_counter + 1,
              logged_clients := insertA app.logged_clients addr
                (BaseClient.new (app.logged_counter + 1)) }
          addr (.clientSessionKey old.session_key) =
        .ok ({ app with
                pending_clients := removeA app.pending_clients k,
                channels := insertA app.channels addr p.blowfish,
                logged_counter := app.logged_counter + 1,
                logged_clients := insertA app.logged_clients addr
                  (BaseClient.new (app.logged_counter + 1)) },
          [], true) := by
  intro app addr k a u rid p old h hm hold hle hc
  refine ⟨auth_match app addr k a u rid p h hm hc, lookupA_insertA_self _ _ _,
    rfl, by simp [BaseClient.new]; omega, ?_⟩
  refine skey_mismatch _ addr old.session_key
    (BaseClient.new (app.logged_counter + 1)) ?_ ?_
  · exact lookupA_insertA_self _ _ _
  · simp [BaseClient.new]
    omega

/-- A base-app state where address 1 already has an established client with
session key 1 and a second pending credential 6 is registered to address 1. -/
def wBaseSecond : BaseApp :=
  { pending_clients := [(6, PendingBaseClient.new 1 99)],
    logged_clients := [(1, BaseClient.new 1)],
    logged_counter := 1, channels := [(1, 99)], elapsed := [], rng := [] }

theorem claim_C10_witness :
    BaseApp.handle_element wBaseSecond 1 (.clientAuth 6 1 0 (some 9)) =
      .ok ({ wBaseSecond with
              pending_clients := removeA wBaseSecond.pending_clients 6,
              channels := insertA wBaseSecond.channels 1
                (PendingBaseClient.new 1 99).blowfish,
              logged_counter := wBaseSecond.logged_counter + 1,
              logged_clients := insertA wBaseSecond.logged_clients 1
                (BaseClient.new (wBaseSecond.logged_counter + 1)) },
        [(1, [.serverSessionKeyReply (wBaseSecond.logged_counter + 1) 9])],
        true) ∧
    lookupA (insertA wBaseSecond.logged_clients 1
        (BaseClient.new (wBaseSecond.logged_counter + 1))) 1
      = some (BaseClient.new (wBaseSecond.logged_counter + 1)) ∧
    (BaseClient.new (wBaseSecond.logged_counter + 1)).sent_freq = false ∧
    (BaseClient.new 1).session_key
      < (BaseClient.new (wBaseSecond.logged_counter + 1)).session_key ∧
    BaseApp.handle_element
        { wBaseSecond with
            pending_clients := removeA wBaseSecond.pending_clients 6,
            channels := insertA wBaseSecond.channels 1
              (PendingBaseClient.new 1 99).blowfish,
            logged_counter := wBaseSecond.logged_counter + 1,
            logged_clients := insertA wBaseSecond.logged_clients 1
              (BaseClient.new (wBaseSecond.logged_counter + 1)) }
        1 (.clientSessionKey (BaseClient.new 1).session_key) =
      .ok ({ wBaseSecond with
              pending_clients := removeA wBaseSecond.pending_clients 6,
              channels := insertA wBaseSecond.channels 1
                (PendingBaseClient.new 1 99).blowfish,
              logged_counter := wBaseSecond.logged_counter + 1,
              logged_clients := insertA wBaseSecond.logged_clients 1
                (BaseClient.new (wBaseSecond.logged_counter + 1)) },
        [], true) :=
  claim_C10 wBaseSecond 1 6 1 0 9 (PendingBaseClient.new 1 99)
    (BaseClient.new 1) rfl rfl rfl (by decide) (by decide)

/-- A base-app state with an established client at address 7 (session key 1)
and six queued uptime readings. -/
def wBaseBoot : BaseApp :=
  { pending_clients := [], logged_clients := [(7, BaseClient.new 1)],
    logged_counter := 1, channels := [],
    elapsed := [100, 101, 102, 103, 104, 105], rng := [] }

/-- C3 (code bug): the source checks `sent_freq` before sending the bootstrap
(server.rs:311) but never sets it to true, so a second matching session-key
confirmation re-sends the whole bootstrap sequence instead of being a no-op:
on `wBaseBoot`, two identical matching confirmations produce the bootstrap
twice and leave the stored client's `sent_freq` still false. -/
theorem claim_C3_bug :
    BaseApp.handleBundle wBaseBoot 7 [.clientSessionKey 1, .clientSessionKey 1] =
      .ok ({ wBaseBoot with elapsed := [] },
        [(7, [.updateFrequencyNotification 10 100, .tickSync 101]),
         (7, [.tickSync 102, .createBasePlayer 37289213 11]),
         (7, [.updateFrequencyNotification 10 103, .tickSync 104]),
         (7, [.tickSync 105, .createBasePlayer 37289213 11])]) ∧
    lookupA ({ wBaseBoot with elapsed := [] } : BaseApp).logged_clients 7 =
      some (BaseClient.new 1) ∧
    (BaseClient.new 1).sent_freq = false :=
  ⟨rfl, rfl, rfl⟩

/-- C8 counterexample: when the bootstrap is sent, the first bundle holds the
update-frequency notification FIRST and its tick stamp second (the source
appends the `TickSync` after the notification, server.rs:314-319), so the
update-frequency message is not "preceded by a current-tick stamp" as the
claim states. -/
theorem claim_C8_cex :
    BaseApp.handle_element wBaseBoot 7 (.clientSessionKey 1) =
      .ok ({ wBaseBoot with elapsed := [103, 104, 105] },
        [(7, [.updateFrequencyNotification 10 100, .tickSync 101]),
         (7, [.tickSync 102, .createBasePlayer 37289213 11])], true) ∧
    List.head? [OutElement.updateFrequencyNotification 10 100,
      OutElement.tickSync 101] =
      some (OutElement.updateFrequencyNotification 10 100) :=
  ⟨rfl, rfl⟩

/-- C8 as amended: the bootstrap sends two bundles in order, the first holding
the update-frequency notification (fixed 10 Hz rate and the current elapsed
seconds) FOLLOWED by a tick stamp, the second holding a tick stamp followed by
the entity-creation message; all three uptime readings (game time and the two
tick stamps) are taken separately in that order, each tick truncated to one
byte, so the two stamps are recomputed per message rather than shared. -/
theorem claim_C8_amended :
    ∀ (app : BaseApp) (addr sk t0 t1 t2 : Nat) (rest : List Nat) (c : BaseClient),
      lookupA app.logged_clients addr = some c → sk = c.session_key →
      c.sent_freq = false → app.elapsed = t0 :: t1 :: t2 :: rest →
      app.handle_element addr (.clientSessionKey sk) =
        .ok ({ app with elapsed := rest },
          [(addr, [.updateFrequencyNotification BaseApp.UPDATE_FREQ (t0 % U32_MOD),
                   .tickSync (t1 % U32_MOD % 256)]),
           (addr, [.tickSync (t2 % U32_MOD % 256),
                   .createBasePlayer 37289213 11])], true) :=
  fun app addr sk t0 t1 t2 rest c h hk hf he =>
    skey_match_fresh app addr sk t0 t1 t2 rest c h hk hf he

/-- A base-app state exercising the bootstrap with three distinct large
uptime readings. -/
def wBase8 : BaseApp :=
  { pending_clients := [], logged_clients := [(4, BaseClient.new 2)],
    logged_counter := 2, channels := [], elapsed := [300, 700, 1000], rng := [] }

theorem claim_C8_amended_witness :
    BaseApp.handle_element wBase8 4 (.clientSessionKey 2) =
      .ok ({ wBase8 with elapsed := [] },
        [(4, [.updateFrequencyNotification BaseApp.UPDATE_FREQ (300 % U32_MOD),
              .tickSync (700 % U32_MOD % 256)]),
         (4, [.tickSync (1000 % U32_MOD % 256),
              .createBasePlayer 37289213 11])], true) :=
  claim_C8_amended wBase8 4 2 300 700 1000 [] (BaseClient.new 2) rfl rfl rfl rfl

/-- The login state after the `entry().or_insert` of
`LoginApp::handle_element` (server.rs:115-118): the sender's tracking entry is
created (or kept as is) even when the element itself is then unrecognized. -/
def touchClients (login : LoginApp) (addr : Nat) : LoginApp :=
  { login with clients := insertA login.clients addr ((lookupA login.clients addr).getD (LoginClient.new addr)) }

/-- A base-app state with a pending credential 5 bound to address 1 and an
established client at address 2 (session key 7). -/
def wBase6 : BaseApp :=
  { pending_clients := [(5, PendingBaseClient.new 1 11)],
    logged_clients := [(2, BaseClient.new 7)],
    logged_counter := 7, channels := [], elapsed := [50, 51, 52], rng := [] }

/-- C6 counterexample: a mismatched address on credential redemption does NOT
abandon the remaining messages of the batch.  On `wBase6`, a batch from
address 2 holding a mismatched `ClientAuth` (credential 5 is bound to address
1) followed by a matching session-key confirmation still processes the second
message: the handler returns true after the mismatch (server.rs:292-299) and
the batch goes on to send the bootstrap. -/
theorem claim_C6_cex :
    BaseApp.handleBundle wBase6 2
        [.clientAuth 5 0 0 (some 3), .clientSessionKey 7] =
      .ok ({ wBase6 with pending_clients := [], elapsed := [] },
        [(2, [.updateFrequencyNotification 10 50, .tickSync 51]),
         (2, [.tickSync 52, .createBasePlayer 37289213 11])]) :=
  rfl

/-- C6 as amended: only an unrecognized message kind (simple or reply, on
either service) abandons the remaining messages of its batch — the handler
returns false and the bundle loop stops with no reply and no state change
beyond, on the login side, creation of the sender's tracking entry.  A
mismatched address on credential redemption and a mismatched session key on
confirmation each send no reply but return true, so the remaining messages of
the batch ARE processed; the mismatched session key changes no state, while
the mismatched address consumes the pending entry (see C5). -/
theorem claim_C6_amended :
    (∀ (app : BaseApp) (addr i : Nat) (rest : List BaseElement),
      app.handleBundle addr (.unknownSimple i :: rest) = .ok (app, [])) ∧
    (∀ (app : BaseApp) (addr i : Nat) (rest : List BaseElement),
      app.handleBundle addr (.unknownReply i :: rest) = .ok (app, [])) ∧
    (∀ (login : LoginApp) (base : BaseApp) (addr i : Nat)
        (rest : List LoginElement),
      login.handleBundle base addr (.unknownSimple i :: rest) =
        .ok (touchClients login addr, base, [])) ∧
    (∀ (login : LoginApp) (base : BaseApp) (addr i : Nat)
        (rest : List LoginElement),
      login.handleBundle base addr (.unknownReply i :: rest) =
        .ok (touchClients login addr, base, [])) ∧
    (∀ (app : BaseApp) (addr k a u : Nat) (rid : Option Nat)
        (p : PendingBaseClient),
      lookupA app.pending_clients k = some p → p.addr ≠ addr →
      app.handle_element addr (.clientAuth k a u rid) =
        .ok ({ app with pending_clients := removeA app.pending_clients k },
          [], true)) ∧
    (∀ (app : BaseApp) (addr sk : Nat) (c : BaseClient),
      lookupA app.logged_clients addr = some c → sk ≠ c.session_key →
      app.handle_element addr (.clientSessionKey sk) = .ok (app, [], true)) := by
  refine ⟨?_, ?_, ?_, ?_, ?_, ?_⟩
  · intro app addr i rest
    simp [BaseApp.handleBundle, BaseApp.handle_element]
  · intro app addr i rest
    simp [BaseApp.handleBundle, BaseApp.handle_element]
  · intro login base addr i rest
    simp [LoginApp.handleBundle, LoginApp.handle_element, touchClients]
  · intro login base addr i rest
    simp [LoginApp.handleBundle, LoginApp.handle_element, touchClients]
  · intro app addr k a u rid p h hm
    exact auth_mismatch app addr k a u rid p h hm
  · intro app addr sk c h hk
    exact skey_mismatch app addr sk c h hk

theorem claim_C6_amended_witness :
    BaseApp.handleBundle wBase6 2
        [BaseElement.unknownSimple 77, .clientSessionKey 7] = .ok (wBase6, []) ∧
    BaseApp.handle_element wBase6 2 (.clientAuth 5 0 0 (some 3)) =
      .ok ({ wBase6 with pending_clients := removeA wBase6.pending_clients 5 },
        [], true) ∧
    BaseApp.handle_element wBase6 2 (.clientSessionKey 9) =
      .ok (wBase6, [], true) :=
  ⟨claim_C6_amended.1 wBase6 2 77 [.clientSessionKey 7],
   claim_C6_amended.2.2.2.2.1 wBase6 2 5 0 0 (some 3)
     (PendingBaseClient.new 1 11) rfl (by decide),
   claim_C6_amended.2.2.2.2.2 wBase6 2 9 (BaseClient.new 7) rfl (by decide)⟩

theorem issuedKeysB_append (b1 b2 : List OutElement) :
    issuedKeysB (b1 ++ b2) = issuedKeysB b1 ++ issuedKeysB b2 := by
  induction b1 with
  | nil => rfl
  | cons e rest ih => cases e <;> simp [issuedKeysB, ih]

theorem issuedKeys_append (s1 s2 : List Sent) :
    issuedKeys (s1 ++ s2) = issuedKeys s1 ++ issuedKeys s2 := by
  induction s1 with
  | nil => rfl
  | cons p rest ih =>
      obtain ⟨a, b⟩ := p
      simp [issuedKeys, ih]

/-- `IncrFrom c ks`: the list `ks` is strictly increasing and every element
exceeds `c`. -/
def IncrFrom (c : Nat) : List Nat → Prop
  | [] => True
  | k :: ks => c < k ∧ IncrFrom k ks

theorem IncrFrom_mono (c c' : Nat) (ks : List Nat) (h : c' ≤ c)
    (hk : IncrFrom c ks) : IncrFrom c' ks := by
  cases ks with
  | nil => trivial
  | cons k ks => exact ⟨lt_of_le_of_lt h hk.1, hk.2⟩

theorem IncrFrom_lt (c : Nat) (ks : List Nat) (hk : IncrFrom c ks) :
    ∀ k ∈ ks, c < k := by
  induction ks generalizing c with
  | nil =>
      intro k h
      cases h
  | cons k0 ks ih =>
      intro k h
      rcases List.mem_cons.mp h with h | h
      · subst h
        exact hk.1
      · exact lt_trans hk.1 (ih k0 hk.2 k h)

theorem IncrFrom_append (c c1 : Nat) (ks1 ks2 : List Nat)
    (h1 : IncrFrom c ks1) (h2 : IncrFrom c1 ks2)
    (hb : ∀ k ∈ ks1, k ≤ c1) (hc : c ≤ c1) :
    IncrFrom c (ks1 ++ ks2) := by
  induction ks1 generalizing c with
  | nil => exact IncrFrom_mono c1 c ks2 hc h2
  | cons k0 ks ih =>
      refine ⟨h1.1, ?_⟩
      exact ih k0 h1.2 (fun k h => hb k (List.mem_cons_of_mem _ h))
        (hb k0 (List.mem_cons_self _ _))

theorem IncrFrom_pairwise (c : Nat) (ks : List Nat) (hk : IncrFrom c ks) :
    ks.Pairwise (· < ·) := by
  induction ks generalizing c with
  | nil => exact List.Pairwise.nil
  | cons k0 ks ih =>
      exact List.Pairwise.cons (IncrFrom_lt k0 ks hk.2) (ih k0 hk.2)

theorem handle_element_keys (app : BaseApp) (addr : Nat) (e : BaseElement)
    (app' : BaseApp) (sent : List Sent) (cont : Bool)
    (heq : app.handle_element addr e = .ok (app', sent, cont)) :
    (issuedKeys sent = [] ∧ app'.logged_counter = app.logged_counter) ∨
    (issuedKeys sent = [app.logged_counter + 1] ∧
      app'.logged_counter = app.logged_counter + 1) := by
  cases e with
  | clientAuth k a u rid =>
      rcases h : lookupA app.pending_clients k with _ | p
      · rw [auth_absent app addr k a u rid h] at heq
        simp only [Except.ok.injEq, Prod.mk.injEq] at heq
        obtain ⟨h1, h2, -⟩ := heq
        subst h1
        subst h2
        exact Or.inl ⟨rfl, rfl⟩
      · by_cases hm : p.addr = addr
        · rcases hadd : checkedAddU32 app.logged_counter 1 with _ | lk
          · simp [BaseApp.handle_element, h, hm, hadd] at heq
          · have hlk : lk = app.logged_counter + 1 := by
              unfold checkedAddU32 at hadd
              split at hadd
              · exact (Option.some.inj hadd).symm
              · exact absurd hadd (by simp)
            rcases rid with _ | rid
            · simp [BaseApp.handle_element, h, hm, hadd] at heq
            · simp only [BaseApp.handle_element, h, hm, hadd, if_pos,
                Except.ok.injEq, Prod.mk.injEq] at heq
              obtain ⟨h1, h2, -⟩ := heq
              subst h1
              subst h2
              refine Or.inr ⟨?_, hlk⟩
              simp [issuedKeys, issuedKeysB, hlk]
        · rw [auth_mismatch app addr k a u rid p h hm] at heq
          simp only [Except.ok.injEq, Prod.mk.injEq] at heq
          obtain ⟨h1, h2, -⟩ := heq
          subst h1
          subst h2
          exact Or.inl ⟨rfl, rfl⟩
  | clientSessionKey sk =>
      rcases h : lookupA app.logged_clients addr with _ | c
      · rw [skey_no_client app addr sk h] at heq
        simp only [Except.ok.injEq, Prod.mk.injEq] at heq
        obtain ⟨h1, h2, -⟩ := heq
        subst h1
        subst h2
        exact Or.inl ⟨rfl, rfl⟩
      · by_cases hk : sk = c.session_key
        · by_cases hf : c.sent_freq = false
          · rcases he : app.elapsed with _ | ⟨t0, _ | ⟨t1, _ | ⟨t2, rest⟩⟩⟩ <;>
            · simp [BaseApp.handle_element, h, hk, hf, he, BaseApp.current_time,
                BaseApp.current_time_tick, BaseApp.timestamp_bundle] at heq
              obtain ⟨h1, h2, -⟩ := heq
              subst h1
              subst h2
              exact Or.inl ⟨by simp [issuedKeys, issuedKeysB], rfl⟩
          · have hf' : c.sent_freq = true := by
              revert hf
              cases c.sent_freq <;> simp
            rw [skey_match_already app addr sk c h hk hf'] at heq
            simp only [Except.ok.injEq, Prod.mk.injEq] at heq
            obtain ⟨h1, h2, -⟩ := heq
            subst h1
            subst h2
            exact Or.inl ⟨rfl, rfl⟩
        · rw [skey_mismatch app addr sk c h hk] at heq
          simp only [Except.ok.injEq, Prod.mk.injEq] at heq
          obtain ⟨h1, h2, -⟩ := heq
          subst h1
          subst h2
          exact Or.inl ⟨rfl, rfl⟩
  | unknownSimple i =>
      simp only [BaseApp.handle_element, Except.ok.injEq, Prod.mk.injEq] at heq
      obtain ⟨h1, h2, -⟩ := heq
      subst h1
      subst h2
      exact Or.inl ⟨rfl, rfl⟩
  | unknownReply i =>
      simp only [BaseApp.handle_element, Except.ok.injEq, Prod.mk.injEq] at heq
      obtain ⟨h1, h2, -⟩ := heq
      subst h1
      subst h2
      exact Or.inl ⟨rfl, rfl⟩

theorem handleBundle_keys (app : BaseApp) (addr : Nat) (es : List BaseElement)
    (app' : BaseApp) (sent : List Sent)
    (heq : app.handleBundle addr es = .ok (app', sent)) :
    IncrFrom app.logged_counter (issuedKeys sent) ∧
    app.logged_counter ≤ app'.logged_counter ∧
    ∀ k ∈ issuedKeys sent, k ≤ app'.logged_counter := by
  induction es generalizing app sent with
  | nil =>
      simp only [BaseApp.handleBundle, Except.ok.injEq, Prod.mk.injEq] at heq
      obtain ⟨h1, h2⟩ := heq
      subst h1
      subst h2
      refine ⟨trivial, le_refl _, ?_⟩
      intro k hk
      cases hk
  | cons e rest ih =>
      simp only [BaseApp.handleBundle] at heq
      split at heq
      · cases heq
      · rename_i r app1 sent1 cont h1
        split at heq
        · split at heq
          · cases heq
          · rename_i r2 app2 sent2 h2
            simp only [Except.ok.injEq, Prod.mk.injEq] at heq
            obtain ⟨ha, hs⟩ := heq
            subst ha
            subst hs
            obtain ⟨ih1, ih2, ih3⟩ := ih app1 sent2 h2
            rw [issuedKeys_append]
            rcases handle_element_keys app addr e app1 sent1 cont h1 with
              ⟨hk0, hc0⟩ | ⟨hk0, hc0⟩
            · rw [hk0]
              rw [hc0] at ih1 ih2
              simp only [List.nil_append]
              exact ⟨ih1, ih2, ih3⟩
            · rw [hk0]
              rw [hc0] at ih1 ih2
              refine ⟨⟨Nat.lt_succ_self _, ih1⟩,
                le_trans (Nat.le_succ _) ih2, ?_⟩
              intro k hk
              rcases List.mem_append.mp hk with hk | hk
              · rcases List.mem_singleton.mp hk with rfl
                exact ih2
              · exact ih3 k hk
        · simp only [Except.ok.injEq, Prod.mk.injEq] at heq
          obtain ⟨ha, hs⟩ := heq
          subst ha
          subst hs
          rcases handle_element_keys app addr e app1 sent1 cont h1 with
            ⟨hk0, hc0⟩ | ⟨hk0, hc0⟩
          · rw [hk0, hc0]
            refine ⟨trivial, le_refl _, ?_⟩
            intro k hk
            cases hk
          · rw [hk0, hc0]
            refine ⟨⟨Nat.lt_succ_self _, trivial⟩, Nat.le_succ _, ?_⟩
            intro k hk
            rcases List.mem_singleton.mp hk with rfl
            exact le_refl _

theorem run_keys (app : BaseApp) (evs : List (Nat × List BaseElement))
    (app' : BaseApp) (sent : List Sent)
    (heq : app.run evs = .ok (app', sent)) :
    IncrFrom app.logged_counter (issuedKeys sent) ∧
    app.logged_counter ≤ app'.logged_counter ∧
    ∀ k ∈ issuedKeys sent, k ≤ app'.logged_counter := by
  induction evs generalizing app sent with
  | nil =>
      simp only [BaseApp.run, Except.ok.injEq, Prod.mk.injEq] at heq
      obtain ⟨h1, h2⟩ := heq
      subst h1
      subst h2
      refine ⟨trivial, le_refl _, ?_⟩
      intro k hk
      cases hk
  | cons ev evs ih =>
      obtain ⟨addr, elems⟩ := ev
      simp only [BaseApp.run] at heq
      split at heq
      · cases heq
      · rename_i r app1 sent1 h1
        split at heq
        · cases heq
        · rename_i r2 app2 sent2 h2
          simp only [Except.ok.injEq, Prod.mk.injEq] at heq
          obtain ⟨ha, hs⟩ := heq
          subst ha
          subst hs
          obtain ⟨b1, b2, b3⟩ := handleBundle_keys app addr elems app1 sent1 h1
          obtain ⟨r1, r2, r3⟩ := ih app1 sent2 h2
          rw [issuedKeys_append]
          refine ⟨IncrFrom_append app.logged_counter app1.logged_counter
            (issuedKeys sent1) (issuedKeys sent2) b1 r1 b3 b2,
            le_trans b2 r2, ?_⟩
          intro k hk
          rcases List.mem_append.mp hk with hk | hk
          · exact le_trans (b3 k hk) r2
          · exact r3 k hk

/-- C4: across any run of the base app, the session keys issued (carried by
`ServerSessionKey` replies, in issue order) are strictly increasing — hence
pairwise distinct across all `BaseClient`s ever created — every issued key
exceeds the starting counter and is non-zero; a single issuance returns
exactly the incremented counter (so from the initial counter 0 the first key
is 1 and each subsequent key is the previous plus one); and when the counter
stands at `u32::MAX` a further issuance is fatal (`checked_add(1).expect`,
server.rs:278) instead of wrapping or duplicating. -/
theorem claim_C4 :
    (∀ (app : BaseApp) (evs : List (Nat × List BaseElement))
        (app' : BaseApp) (sent : List Sent),
      app.run evs = .ok (app', sent) →
      (issuedKeys sent).Pairwise (· < ·) ∧
      (issuedKeys sent).Pairwise (· ≠ ·) ∧
      (∀ k ∈ issuedKeys sent, app.logged_counter < k ∧ 0 < k)) ∧
    (∀ (app : BaseApp) (addr k a u rid : Nat) (p : PendingBaseClient),
      lookupA app.pending_clients k = some p → p.addr = addr →
      app.logged_counter < U32_MAX →
      app.handle_element addr (.clientAuth k a u (some rid)) =
        .ok ({ app with
                pending_clients := removeA app.pending_clients k,
                channels := insertA app.channels addr p.blowfish,
                logged_counter := app.logged_counter + 1,
                logged_clients := insertA app.logged_clients addr
                  (BaseClient.new (app.logged_counter + 1)) },
          [(addr, [.serverSessionKeyReply (app.logged_counter + 1) rid])],
          true)) ∧
    (∀ (app : BaseApp) (addr k a u : Nat) (rid : Option Nat)
        (p : PendingBaseClient),
      lookupA app.pending_clients k = some p → p.addr = addr →
      app.logged_counter = U32_MAX →
      app.handle_element addr (.clientAuth k a u rid) =
        .error .tooMuchLoggedClients) := by
  refine ⟨?_, ?_, ?_⟩
  · intro app evs app' sent heq
    obtain ⟨h1, -, -⟩ := run_keys app evs app' sent heq
    refine ⟨IncrFrom_pairwise _ _ h1, ?_, ?_⟩
    · exact (IncrFrom_pairwise _ _ h1).imp Nat.ne_of_lt
    · intro k hk
      have := IncrFrom_lt _ _ h1 k hk
      exact ⟨this, Nat.lt_of_le_of_lt (Nat.zero_le _) this⟩
  · intro app addr k a u rid p h hm hc
    exact auth_match app addr k a u rid p h hm hc
  · intro app addr k a u rid p h hm hc
    exact auth_match_exhausted app addr k a u rid p h hm hc

/-- A base-app state holding two pending credentials for address 1 and
another for address 2. -/
def wBase4 : BaseApp :=
  { pending_clients := [(5, PendingBaseClient.new 1 99),
      (6, PendingBaseClient.new 1 98), (9, PendingBaseClient.new 2 97)],
    logged_clients := [], logged_counter := 0, channels := [],
    elapsed := [], rng := [] }

/-- A base-app state whose session-key counter stands at `u32::MAX`. -/
def wBase4Max : BaseApp :=
  { pending_clients := [(5, PendingBaseClient.new 1 99)], logged_clients := [],
    logged_counter := U32_MAX, channels := [], elapsed := [], rng := [] }

theorem claim_C4_witness :
    ((issuedKeys [(1, [.serverSessionKeyReply 1 3]),
        (1, [.serverSessionKeyReply 2 4]),
        (2, [.serverSessionKeyReply 3 5])]).Pairwise (· < ·) ∧
      (issuedKeys [(1, [.serverSessionKeyReply 1 3]),
        (1, [.serverSessionKeyReply 2 4]),
        (2, [.serverSessionKeyReply 3 5])]).Pairwise (· ≠ ·) ∧
      (∀ k ∈ issuedKeys [(1, [.serverSessionKeyReply 1 3]),
        (1, [.serverSessionKeyReply 2 4]),
        (2, [.serverSessionKeyReply 3 5])],
        wBase4.logged_counter < k ∧ 0 < k)) ∧
    BaseApp.handle_element wBase4 1 (.clientAuth 5 0 0 (some 3)) =
      .ok ({ wBase4 with
              pending_clients := removeA wBase4.pending_clients 5,
              channels := insertA wBase4.channels 1
                (PendingBaseClient.new 1 99).blowfish,
              logged_counter := wBase4.logged_counter + 1,
              logged_clients := insertA wBase4.logged_clients 1
                (BaseClient.new (wBase4.logged_counter + 1)) },
        [(1, [.serverSessionKeyReply (wBase4.logged_counter + 1) 3])], true) ∧
    BaseApp.handle_element wBase4Max 1 (.clientAuth 5 0 0 (some 3)) =
      .error .tooMuchLoggedClients := by
  refine ⟨?_, ?_, ?_⟩
  · exact claim_C4.1 wBase4
      [(1, [.clientAuth 5 0 0 (some 3), .clientAuth 6 0 0 (some 4)]),
       (2, [.clientAuth 9 0 0 (some 5)])]
      { pending_clients := [], logged_clients := [(1, BaseClient.new 2),
          (2, BaseClient.new 3)], logged_counter := 3,
        channels := [(1, 98), (2, 97)], elapsed := [], rng := [] }
      [(1, [.serverSessionKeyReply 1 3]), (1, [.serverSessionKeyReply 2 4]),
       (2, [.serverSessionKeyReply 3 5])] rfl
  · exact claim_C4.2.1 wBase4 1 5 0 0 3 (PendingBaseClient.new 1 99) rfl rfl
      (by decide)
  · exact claim_C4.2.2 wBase4Max 1 5 0 0 (some 3) (PendingBaseClient.new 1 99)
      rfl rfl rfl

theorem insertA_insertA {α : Type} (l : List (Nat × α)) (k : Nat) (v v' : α) :
    insertA (insertA l k v) k v' = insertA l k v' := by
  induction l with
  | nil => simp [insertA]
  | cons p rest ih =>
      obtain ⟨k', w⟩ := p
      by_cases h : k' = k
      · simp [insertA, h]
      · simp [insertA, h, ih]

theorem getD_flag (login : LoginApp) (addr : Nat) :
    ((lookupA login.clients addr).getD (LoginClient.new addr)).challenge_complete
      = flagAt login addr := by
  rcases h : lookupA login.clients addr with _ | c
  · simp [h, flagAt, LoginClient.new]
  · simp [h, flagAt]

theorem flagAt_clients (login' login : LoginApp) (addr a : Nat)
    (c' : LoginClient)
    (hcl : login'.clients = insertA login.clients addr c')
    (hc : c'.challenge_complete = flagAt login addr) :
    flagAt login' a = flagAt login a := by
  by_cases ha : a = addr
  · subst ha
    simp [flagAt, hcl, lookupA_insertA_self, hc]
  · simp only [flagAt, hcl, lookupA_insertA_ne _ _ _ _ ha]

theorem flagAt_clients_set (login' login : LoginApp) (addr a : Nat)
    (c' : LoginClient)
    (hcl : login'.clients = insertA login.clients addr c')
    (hc : c'.challenge_complete = true) :
    flagAt login' a = if a = addr then true else flagAt login a := by
  by_cases ha : a = addr
  · subst ha
    simp [flagAt, hcl, lookupA_insertA_self, hc]
  · simp only [flagAt, hcl, lookupA_insertA_ne _ _ _ _ ha, if_neg ha]

theorem flagAt_step_cr (login : LoginApp) (base : BaseApp) (addr content : Nat)
    (login' : LoginApp) (base' : BaseApp) (sent : List Sent) (cont : Bool)
    (a : Nat)
    (heq : login.handle_element base addr (.challengeResponse content) =
      .ok (login', base', sent, cont)) :
    flagAt login' a = if a = addr then true else flagAt login a := by
  simp only [LoginApp.handle_element, Except.ok.injEq, Prod.mk.injEq] at heq
  obtain ⟨h1, -, -, -⟩ := heq
  refine flagAt_clients_set login' login addr a
    { (lookupA login.clients addr).getD (LoginClient.new addr) with
        challenge_complete := true } ?_ rfl
  rw [← h1]
  simp [insertA_insertA]

theorem flagAt_step_other (login : LoginApp) (base : BaseApp) (addr : Nat)
    (e : LoginElement) (login' : LoginApp) (base' : BaseApp) (sent : List Sent)
    (cont : Bool) (a : Nat)
    (heq : login.handle_element base addr e = .ok (login', base', sent, cont))
    (hne : ∀ content, e ≠ .challengeResponse content) :
    flagAt login' a = flagAt login a := by
  cases e with
  | ping num rid =>
      rcases rid with _ | rid
      · simp [LoginApp.handle_element] at heq
      · simp only [LoginApp.handle_element, Except.ok.injEq, Prod.mk.injEq] at heq
        obtain ⟨h1, -, -, -⟩ := heq
        refine flagAt_clients login' login addr a _ ?_ (getD_flag login addr)
        rw [← h1]
  | loginRequest bfk rid =>
      rcases hr : login.rng with _ | ⟨v, vrest⟩ <;>
      rcases rid with _ | rid
      · simp [LoginApp.handle_element, LoginApp.drawRng, hr] at heq
      · simp only [LoginApp.handle_element, LoginApp.drawRng, hr] at heq
        split at heq
        · simp only [Except.ok.injEq, Prod.mk.injEq] at heq
          obtain ⟨h1, -, -, -⟩ := heq
          refine flagAt_clients login' login addr a
            { (lookupA login.clients addr).getD (LoginClient.new addr) with
                blowfish := some bfk } ?_ ?_
          · rw [← h1]
            simp [insertA_insertA]
          · simpa using getD_flag login addr
        · simp only [Except.ok.injEq, Prod.mk.injEq] at heq
          obtain ⟨h1, -, -, -⟩ := heq
          refine flagAt_clients login' login addr a
            { (lookupA login.clients addr).getD (LoginClient.new addr) with
                blowfish := some bfk } ?_ ?_
          · rw [← h1]
            simp [insertA_insertA]
          · simpa using getD_flag login addr
      · simp [LoginApp.handle_element, LoginApp.drawRng, hr] at heq
      · simp only [LoginApp.handle_element, LoginApp.drawRng, hr] at heq
        split at heq
        · simp only [Except.ok.injEq, Prod.mk.injEq] at heq
          obtain ⟨h1, -, -, -⟩ := heq
          refine flagAt_clients login' login addr a
            { (lookupA login.clients addr).getD (LoginClient.new addr) with
                blowfish := some bfk } ?_ ?_
          · rw [← h1]
            simp [insertA_insertA]
          · simpa using getD_flag login addr
        · simp only [Except.ok.injEq, Prod.mk.injEq] at heq
          obtain ⟨h1, -, -, -⟩ := heq
          refine flagAt_clients login' login addr a
            { (lookupA login.clients addr).getD (LoginClient.new addr) with
                blowfish := some bfk } ?_ ?_
          · rw [← h1]
            simp [insertA_insertA]
          · simpa using getD_flag login addr
  | challengeResponse content => exact absurd rfl (hne content)
  | unknownSimple i =>
      simp only [LoginApp.handle_element, Except.ok.injEq, Prod.mk.injEq] at heq
      obtain ⟨h1, -, -, -⟩ := heq
      refine flagAt_clients login' login addr a _ ?_ (getD_flag login addr)
      rw [← h1]
  | unknownReply i =>
      simp only [LoginApp.handle_element, Except.ok.injEq, Prod.mk.injEq] at heq
      obtain ⟨h1, -, -, -⟩ := heq
      refine flagAt_clients login' login addr a _ ?_ (getD_flag login addr)
      rw [← h1]

theorem flagAt_step_mono (login : LoginApp) (base : BaseApp) (addr : Nat)
    (e : LoginElement) (login' : LoginApp) (base' : BaseApp) (sent : List Sent)
    (cont : Bool) (a : Nat)
    (heq : login.handle_element base addr e = .ok (login', base', sent, cont))
    (hf : flagAt login a = true) : flagAt login' a = true := by
  cases e with
  | challengeResponse content =>
      rw [flagAt_step_cr login base addr content login' base' sent cont a heq]
      by_cases ha : a = addr <;> simp [ha, hf]
  | ping num rid =>
      rw [flagAt_step_other login base addr _ login' base' sent cont a heq
        (fun c hc => by cases hc)]
      exact hf
  | loginRequest bfk rid =>
      rw [flagAt_step_other login base addr _ login' base' sent cont a heq
        (fun c hc => by cases hc)]
      exact hf
  | unknownSimple i =>
      rw [flagAt_step_other login base addr _ login' base' sent cont a heq
        (fun c hc => by cases hc)]
      exact hf
  | unknownReply i =>
      rw [flagAt_step_other login base addr _ login' base' sent cont a heq
        (fun c hc => by cases hc)]
      exact hf

theorem flagAt_step_pres (login : LoginApp) (base : BaseApp) (addr : Nat)
    (e : LoginElement) (login' : LoginApp) (base' : BaseApp) (sent : List Sent)
    (cont : Bool) (a : Nat)
    (heq : login.handle_element base addr e = .ok (login', base', sent, cont))
    (hcond : a ≠ addr ∨ ∀ content, e ≠ .challengeResponse content) :
    flagAt login' a = flagAt login a := by
  cases e with
  | challengeResponse content =>
      rcases hcond with ha | hne
      · rw [flagAt_step_cr login base addr content login' base' sent cont a heq,
          if_neg ha]
      · exact absurd rfl (hne content)
  | ping num rid =>
      exact flagAt_step_other login base addr _ login' base' sent cont a heq
        (fun c hc => by cases hc)
  | loginRequest bfk rid =>
      exact flagAt_step_other login base addr _ login' base' sent cont a heq
        (fun c hc => by cases hc)
  | unknownSimple i =>
      exact flagAt_step_other login base addr _ login' base' sent cont a heq
        (fun c hc => by cases hc)
  | unknownReply i =>
      exact flagAt_step_other login base addr _ login' base' sent cont a heq
        (fun c hc => by cases hc)

theorem handleBundle_flag (login : LoginApp) (base : BaseApp) (addr : Nat)
    (es : List LoginElement) (login' : LoginApp) (base' : BaseApp)
    (sent : List Sent) (a : Nat)
    (heq : login.handleBundle base addr es = .ok (login', base', sent)) :
    (flagAt login a = true → flagAt login' a = true) ∧
    ((a ≠ addr ∨ ∀ content, LoginElement.challengeResponse content ∉ es) →
      flagAt login' a = flagAt login a) := by
  induction es generalizing login base sent with
  | nil =>
      simp only [LoginApp.handleBundle, Except.ok.injEq, Prod.mk.injEq] at heq
      obtain ⟨h1, -, -⟩ := heq
      subst h1
      exact ⟨fun h => h, fun _ => rfl⟩
  | cons e rest ih =>
      simp only [LoginApp.handleBundle] at heq
      split at heq
      · cases heq
      · rename_i r login1 base1 sent1 cont h1
        have hcondE : ∀ (hc : a ≠ addr ∨
            ∀ content, LoginElement.challengeResponse content ∉ e :: rest),
            a ≠ addr ∨ ∀ content, e ≠ .challengeResponse content := by
          intro hc
          rcases hc with ha | hm
          · exact Or.inl ha
          · refine Or.inr fun content he => ?_
            exact hm content (he ▸ List.mem_cons_self e rest)
        have hcondR : ∀ (hc : a ≠ addr ∨
            ∀ content, LoginElement.challengeResponse content ∉ e :: rest),
            a ≠ addr ∨ ∀ content, LoginElement.challengeResponse content ∉ rest := by
          intro hc
          rcases hc with ha | hm
          · exact Or.inl ha
          · exact Or.inr fun content hmem => hm content (List.mem_cons_of_mem e hmem)
        split at heq
        · split at heq
          · cases heq
          · rename_i r2 login2 base2 sent2 h2
            simp only [Except.ok.injEq, Prod.mk.injEq] at heq
            obtain ⟨hl, hb, -⟩ := heq
            subst hl
            subst hb
            obtain ⟨ih1, ih2⟩ := ih login1 base1 sent2 h2
            refine ⟨?_, ?_⟩
            · intro h
              exact ih1 (flagAt_step_mono login base addr e login1 base1 sent1
                cont a h1 h)
            · intro hc
              rw [ih2 (hcondR hc),
                flagAt_step_pres login base addr e login1 base1 sent1 cont a h1
                  (hcondE hc)]
        · simp only [Except.ok.injEq, Prod.mk.injEq] at heq
          obtain ⟨hl, -, -⟩ := heq
          subst hl
          refine ⟨?_, ?_⟩
          · intro h
            exact flagAt_step_mono login base addr e _ base1 sent1 cont a h1 h
          · intro hc
            exact flagAt_step_pres login base addr e _ base1 sent1 cont a h1
              (hcondE hc)

theorem run_flag (login : LoginApp) (base : BaseApp)
    (evs : List (Nat × List LoginElement)) (login' : LoginApp)
    (base' : BaseApp) (sent : List Sent) (a : Nat)
    (heq : login.run base evs = .ok (login', base', sent)) :
    (flagAt login a = true → flagAt login' a = true) ∧
    ((∀ elems, (a, elems) ∈ evs →
        ∀ content, LoginElement.challengeResponse content ∉ elems) →
      flagAt login' a = flagAt login a) := by
  induction evs generalizing login base sent with
  | nil =>
      simp only [LoginApp.run, Except.ok.injEq, Prod.mk.injEq] at heq
      obtain ⟨h1, -, -⟩ := heq
      subst h1
      exact ⟨fun h => h, fun _ => rfl⟩
  | cons ev evs ih =>
      obtain ⟨addrE, elems⟩ := ev
      simp only [LoginApp.run] at heq
      split at heq
      · cases heq
      · rename_i r login1 base1 sent1 h1
        split at heq
        · cases heq
        · rename_i r2 login2 base2 sent2 h2
          simp only [Except.ok.injEq, Prod.mk.injEq] at heq
          obtain ⟨hl, hb, -⟩ := heq
          subst hl
          subst hb
          obtain ⟨b1, b2⟩ := handleBundle_flag login base addrE elems login1
            base1 sent1 a h1
          obtain ⟨r1, r2⟩ := ih login1 base1 sent2 h2
          refine ⟨fun h => r1 (b1 h), ?_⟩
          intro hc
          have hrest : flagAt login2 a = flagAt login1 a := by
            refine r2 fun elems2 hmem content => hc elems2 (List.mem_cons_of_mem _ hmem) content
          have hhead : flagAt login1 a = flagAt login a := by
            by_cases ha : a = addrE
            · subst ha
              exact b2 (Or.inr (hc elems (List.mem_cons_self _ _)))
            · exact b2 (Or.inl ha)
          rw [hrest, hhead]

/-- C7: a login client's `challenge_complete` flag is false at creation; over
any run of the login app in which address `a` sends no challenge-answer
message, a false flag stays false; receiving a challenge-answer sets the
sender's flag to true whatever the answer's content (the handler never
inspects it, server.rs:194-199); and once true the flag survives every
further run (it is never reset). -/
theorem claim_C7 :
    (∀ a : Nat, (LoginClient.new a).challenge_complete = false) ∧
    (∀ (login : LoginApp) (base : BaseApp)
        (evs : List (Nat × List LoginElement)) (login' : LoginApp)
        (base' : BaseApp) (sent : List Sent) (a : Nat),
      login.run base evs = .ok (login', base', sent) →
      (∀ elems, (a, elems) ∈ evs →
        ∀ content, LoginElement.challengeResponse content ∉ elems) →
      flagAt login a = false → flagAt login' a = false) ∧
    (∀ (login : LoginApp) (base : BaseApp) (addr content : Nat)
        (login' : LoginApp) (base' : BaseApp) (sent : List Sent) (cont : Bool),
      login.handle_element base addr (.challengeResponse content) =
        .ok (login', base', sent, cont) →
      flagAt login' addr = true) ∧
    (∀ (login : LoginApp) (base : BaseApp)
        (evs : List (Nat × List LoginElement)) (login' : LoginApp)
        (base' : BaseApp) (sent : List Sent) (a : Nat),
      login.run base evs = .ok (login', base', sent) →
      flagAt login a = true → flagAt login' a = true) := by
  refine ⟨?_, ?_, ?_, ?_⟩
  · intro a
    rfl
  · intro login base evs login' base' sent a heq hcond hf
    rw [(run_flag login base evs login' base' sent a heq).2 hcond]
    exact hf
  · intro login base addr content login' base' sent cont heq
    rw [flagAt_step_cr login base addr content login' base' sent cont addr heq]
    simp
  · intro login base evs login' base' sent a heq hf
    exact (run_flag login base evs login' base' sent a heq).1 hf

/-- An empty login-app state. -/
def wLogin0 : LoginApp := { clients := [], rng := [] }

/-- A login-app state where address 2 has completed the challenge. -/
def wLoginDone : LoginApp :=
  { clients := [(2, { addr := 2, blowfish := none, challenge_complete := true })],
    rng := [] }

/-- A login client record for address 1 with the challenge completed. -/
def wClientDone1 : LoginClient :=
  { addr := 1, blowfish := none, challenge_complete := true }

theorem claim_C7_witness :
    (LoginClient.new 3).challenge_complete = false ∧
    flagAt { clients := [(1, LoginClient.new 1)], rng := [] } 1 = false ∧
    flagAt { clients := [(1, wClientDone1)], rng := [] } 1 = true ∧
    flagAt wLoginDone 2 = true := by
  refine ⟨claim_C7.1 3, ?_, ?_, ?_⟩
  · refine claim_C7.2.1 wLogin0 wBase [(1, [.ping 0 (some 1)])]
      { clients := [(1, LoginClient.new 1)], rng := [] } wBase
      [(1, [.pingReply 0 1])] 1 rfl ?_ rfl
    intro elems hm content hmem
    simp only [List.mem_singleton, Prod.mk.injEq] at hm
    obtain ⟨-, he⟩ := hm
    subst he
    simp at hmem
  · exact claim_C7.2.2.1 wLogin0 wBase 1 5
      { clients := [(1, wClientDone1)], rng := [] } wBase [] true rfl
  · exact claim_C7.2.2.2 wLoginDone wBase [(2, [.ping 1 (some 4)])]
      wLoginDone wBase [(2, [.pingReply 1 4])] 2 rfl rfl
